import Mathlib

/-
Verification of the overlap-checked activity scheduling core of the
task-logger repository (src/query_scripts.py, src/cli.py, src/db.py).

The relational store is embedded as explicit lists of rows; timestamps are
naive local times measured in whole seconds (Nat), and the calendar date of
a timestamp is its day number `t / 86400`.  Each operation of
src/query_scripts.py becomes a pure function from a `Store` to a `Store`
together with its return value.  SQL `ORDER BY` is embedded as an insertion
sort on the row list, `LIMIT n` as `List.take n`, and fetchone on an
unordered `SELECT` as `List.find?`.
-/

namespace TaskLogger

/-- Python `str.lower()` / SQL `LOWER`: lower-case every character. -/
def pyLower (s : String) : String := ⟨s.data.map Char.toLower⟩

/-- Python `str.strip()`: drop leading and trailing whitespace. -/
def pyStrip (s : String) : String :=
  ⟨((s.data.dropWhile Char.isWhitespace).reverse.dropWhile Char.isWhitespace).reverse⟩

/-- Row of the `categories` table: `categories(id PK, name, color NULLABLE)`. -/
structure Category where
  id : Nat
  name : String
  color : Option String
  deriving Repr, DecidableEq

/-- Row of the `tags` table: `tags(id PK, category_id FK, name)`. -/
structure Tag where
  id : Nat
  category_id : Nat
  name : String
  deriving Repr, DecidableEq

/-- Row of the `activities` table:
`activities(id PK, start_time, end_time, category_id FK NOT NULL, notes NULLABLE)`.
Times are whole seconds of naive local time. -/
structure Activity where
  id : Nat
  start_time : Nat
  end_time : Nat
  category_id : Nat
  notes : Option String
  deriving Repr, DecidableEq

/-- The four tables of the schema plus the primary-key sequences that back
`RETURNING id` on inserts.  `activity_tags` rows are `(activity_id, tag_id)`
pairs with a uniqueness constraint. -/
structure Store where
  categories : List Category
  tags : List Tag
  activities : List Activity
  activity_tags : List (Nat × Nat)
  next_category_id : Nat
  next_tag_id : Nat
  next_activity_id : Nat
  deriving Repr, DecidableEq

/-! ## Interval conflict detector (src/query_scripts.py lines 123-151) -/

/-- The `WHERE` clause of `check_overlap_range`: rows with
`start_time < %s AND end_time > %s` for the parameters `(end_time, start_time)`
of the queried interval, and `id != %s` when an exclusion id is supplied. -/
def overlapCandidates (s : Store) (qstart qend : Nat) (exclude_id : Option Nat) :
    List Activity :=
  s.activities.filter fun a =>
    a.start_time < qend && qstart < a.end_time &&
      match exclude_id with
      | none => true
      | some i => a.id != i

/-- Ordering used by `ORDER BY start_time`. -/
def startLE (a b : Activity) : Prop := a.start_time ≤ b.start_time

instance : DecidableRel startLE := fun _ _ => Nat.decLe _ _

instance : IsTotal Activity startLE := ⟨fun _ _ => Nat.le_total _ _⟩

instance : IsTrans Activity startLE := ⟨fun _ _ _ => Nat.le_trans⟩

/-- src/query_scripts.py `check_overlap_range(start_time, end_time, exclude_id)`:
`SELECT id, start_time, end_time FROM activities WHERE start_time < end AND
end_time > start [AND id != exclude_id] ORDER BY start_time LIMIT 5`. -/
def check_overlap_range (s : Store) (qstart qend : Nat) (exclude_id : Option Nat) :
    List (Nat × Nat × Nat) :=
  ((List.insertionSort startLE (overlapCandidates s qstart qend exclude_id)).map
    fun a => (a.id, a.start_time, a.end_time)).take 5

/-! ## Concrete stores used as inputs of the closed theorems -/

/-- The store right after schema creation: all tables empty, sequences at 1. -/
def emptyStore : Store := ⟨[], [], [], [], 1, 1, 1⟩

/-- One category and six short activities, all inside `[0, 1000)`. -/
def storeSix : Store :=
  ⟨[⟨1, "Work", none⟩], [],
   [⟨1, 100, 150, 1, none⟩, ⟨2, 200, 250, 1, none⟩, ⟨3, 300, 350, 1, none⟩,
    ⟨4, 400, 450, 1, none⟩, ⟨5, 500, 550, 1, none⟩, ⟨6, 600, 650, 1, none⟩],
   [], 2, 1, 7⟩

/-! ## C10 — the detector caps its answer at five conflicts -/

/-- C10.  `check_overlap_range` carries `LIMIT 5`: for every store, query
interval and exclusion, the returned conflict list has at most 5 entries,
even when more existing activities overlap the queried interval. -/
theorem check_overlap_range_length_le_five (s : Store) (qstart qend : Nat)
    (exclude_id : Option Nat) :
    (check_overlap_range s qstart qend exclude_id).length ≤ 5 := by
  simp only [check_overlap_range, List.length_take]
  exact Nat.min_le_left _ _

/-! ## C3 — what the detector returns -/

/-- C3, counterexample.  The claim says the detector returns exactly the set
of stored records overlapping the query; on `storeSix` six records satisfy
the overlap test for the query `[0, 1000)` but only five are returned, so
the claim as stated is false. -/
theorem check_overlap_range_drops_sixth_conflict :
    (check_overlap_range storeSix 0 1000 none).length = 5 ∧
      (overlapCandidates storeSix 0 1000 none).length = 6 ∧ (5 : Nat) ≠ 6 := by
  decide

/-- C3 as amended.  `check_overlap_range` returns only records of the store
that satisfy the strict half-open test `stored.start < end AND stored.end >
start` and differ from the excluded id; the result is ordered ascending by
start time; and whenever at most 5 stored records satisfy the test the
result is complete (every satisfying record appears). -/
theorem check_overlap_range_sound_sorted_complete (s : Store) (qstart qend : Nat)
    (exclude_id : Option Nat) :
    (∀ r ∈ check_overlap_range s qstart qend exclude_id,
        ∃ a ∈ s.activities, r = (a.id, a.start_time, a.end_time) ∧
          a.start_time < qend ∧ qstart < a.end_time ∧
          ∀ i, exclude_id = some i → a.id ≠ i) ∧
    (check_overlap_range s qstart qend exclude_id).Pairwise
      (fun r₁ r₂ => r₁.2.1 ≤ r₂.2.1) ∧
    ((overlapCandidates s qstart qend exclude_id).length ≤ 5 →
      ∀ a ∈ s.activities, a.start_time < qend → qstart < a.end_time →
        (∀ i, exclude_id = some i → a.id ≠ i) →
        (a.id, a.start_time, a.end_time) ∈ check_overlap_range s qstart qend exclude_id) := by
  refine ⟨?_, ?_, ?_⟩
  · intro r hr
    have hr' := List.mem_of_mem_take hr
    obtain ⟨a, ha, rfl⟩ := List.mem_map.mp hr'
    have ha' : a ∈ overlapCandidates s qstart qend exclude_id :=
      (List.mem_insertionSort startLE).mp ha
    obtain ⟨hmem, hcond⟩ := List.mem_filter.mp ha'
    cases hex : exclude_id with
    | none =>
        simp [hex] at hcond
        exact ⟨a, hmem, rfl, hcond.1, hcond.2, by intro i hi; cases hi⟩
    | some i =>
        simp [hex] at hcond
        refine ⟨a, hmem, rfl, hcond.1.1, hcond.1.2, ?_⟩
        intro j hj
        exact (Option.some.inj hj) ▸ hcond.2
  · have hs : (List.insertionSort startLE (overlapCandidates s qstart qend exclude_id)).Sorted
        startLE := List.sorted_insertionSort startLE _
    have hmap : ((List.insertionSort startLE (overlapCandidates s qstart qend exclude_id)).map
        fun a => (a.id, a.start_time, a.end_time)).Pairwise
          (fun r₁ r₂ => r₁.2.1 ≤ r₂.2.1) := by
      rw [List.pairwise_map]
      exact hs.imp fun h => h
    exact hmap.sublist (List.take_sublist 5 _)
  · intro hlen a hmem h1 h2 h3
    have hcand : a ∈ overlapCandidates s qstart qend exclude_id := by
      refine List.mem_filter.mpr ⟨hmem, ?_⟩
      cases hex : exclude_id with
      | none => simp [h1, h2]
      | some i => simp [h1, h2, h3 i hex]
    have hsorted : a ∈ List.insertionSort startLE (overlapCandidates s qstart qend exclude_id) :=
      (List.mem_insertionSort startLE).mpr hcand
    have hinmap : (a.id, a.start_time, a.end_time) ∈
        (List.insertionSort startLE (overlapCandidates s qstart qend exclude_id)).map
          (fun a => (a.id, a.start_time, a.end_time)) :=
      List.mem_map_of_mem _ hsorted
    have hlen' : ((List.insertionSort startLE (overlapCandidates s qstart qend exclude_id)).map
        fun a => (a.id, a.start_time, a.end_time)).length ≤ 5 := by
      rw [List.length_map, (List.perm_insertionSort startLE _).length_eq]
      exact hlen
    rw [check_overlap_range, List.take_of_length_le hlen']
    exact hinmap

/-! ## Activity mutations (src/query_scripts.py lines 340-428)

`log_activity` and `update_activity` are embedded exactly as written in
src/query_scripts.py: neither of them calls `check_overlap_range` before
writing.  (Their caller src/cli.py `cmd_log`, lines 329-341, catches a
`ValueError` carrying a conflict list that this `log_activity` never
raises.) -/

/-- Python truthiness of the notes argument in `log_activity`:
`notes if notes else None` stores NULL for a missing or empty string. -/
def normNotes : Option String → Option String
  | none => none
  | some n => if n = "" then none else some n

/-- Insertion into `activity_tags` with `ON CONFLICT DO NOTHING`: adding an
existing pair is a no-op. -/
def insertTagAssoc (ats : List (Nat × Nat)) (aid tid : Nat) : List (Nat × Nat) :=
  if (aid, tid) ∈ ats then ats else ats ++ [(aid, tid)]

/-- src/query_scripts.py `log_activity` (lines 340-365): insert the activity
row with a fresh id, insert one association row per tag id idempotently, and
return the id with `int((end_time - start_time).total_seconds() / 60)` —
whole minutes, sub-minute remainder truncated.  No overlap check is made. -/
def log_activity (s : Store) (start_time end_time category_id : Nat)
    (tag_ids : List Nat) (notes : Option String) : Store × Nat × Nat :=
  let aid := s.next_activity_id
  ({ s with
      activities := s.activities ++ [⟨aid, start_time, end_time, category_id, normNotes notes⟩],
      activity_tags := tag_ids.foldl (fun l t => insertTagAssoc l aid t) s.activity_tags,
      next_activity_id := aid + 1 },
   aid, (end_time - start_time) / 60)

/-- src/query_scripts.py `update_activity` (lines 368-396): build the `SET`
list from the provided fields only (a provided notes value with blank strip
is stored as NULL), return `False` when no field was provided, else run the
`UPDATE ... WHERE id = %s` and report `rowcount > 0`.  No overlap check is
made.  `applySet` is the effect of the built `SET` list on one row: the
target row takes each provided field (a provided notes value that strips to
blank becomes NULL), every other row is untouched. -/
def applySet (start_time end_time category_id : Option Nat) (notes : Option String)
    (activity_id : Nat) (a : Activity) : Activity :=
  if a.id = activity_id then
    { a with
        start_time := start_time.getD a.start_time,
        end_time := end_time.getD a.end_time,
        category_id := category_id.getD a.category_id,
        notes := match notes with
          | some w => if pyStrip w = "" then none else some w
          | none => a.notes }
  else a

def update_activity (s : Store) (activity_id : Nat)
    (start_time end_time category_id : Option Nat) (notes : Option String) :
    Store × Bool :=
  if start_time = none ∧ end_time = none ∧ category_id = none ∧ notes = none then
    (s, false)
  else
    ({ s with
        activities := s.activities.map
          (applySet start_time end_time category_id notes activity_id) },
     s.activities.any fun a => a.id = activity_id)

/-- src/query_scripts.py `delete_activity` (lines 417-428): fetch the row's
interval, return `None` when the id does not exist, else delete the row and
return the interval (the Python renders it as a time string). -/
def delete_activity (s : Store) (activity_id : Nat) : Store × Option (Nat × Nat) :=
  match s.activities.find? (fun a => a.id = activity_id) with
  | none => (s, none)
  | some a =>
      ({ s with activities := s.activities.filter fun b => ¬ b.id = activity_id },
       some (a.start_time, a.end_time))

/-- src/query_scripts.py `get_activity` (lines 431-463): select the row of
`activities_view` with the given id, return `None` when no row matched, else
the detail record together with the activity's tag ids from
`activity_tags`.  The view's joined display columns (category name and
color, flattened tag-name string, derived duration) are defined by the
schema; the record here keeps the underlying activity row and the explicit
tag-id list, which is what the not-found contract concerns. -/
def get_activity (s : Store) (activity_id : Nat) : Option (Activity × List Nat) :=
  match s.activities.find? (fun a => a.id = activity_id) with
  | none => none
  | some a =>
      some (a, (s.activity_tags.filter fun p => p.1 = activity_id).map fun p => p.2)

/-! ## C1, C2, C4 — the missing conflict checks -/

/-- One committed activity `[0, 3600)` under category 1. -/
def storeOne : Store := ⟨[⟨1, "Work", none⟩], [], [⟨1, 0, 3600, 1, none⟩], [], 2, 1, 2⟩

/-- The store after `log_activity(storeOne, 1800, 5400, 1, [], None)`. -/
def storeOneAfter : Store := (log_activity storeOne 1800 5400 1 [] none).1

/-- Two committed activities `[0, 3600)` and `[7200, 10800)`. -/
def storeTwo : Store :=
  ⟨[⟨1, "Work", none⟩], [], [⟨1, 0, 3600, 1, none⟩, ⟨2, 7200, 10800, 1, none⟩], [], 2, 1, 3⟩

/-- C1.  The no-overlap invariant does not survive a committed create:
logging `[1800, 5400)` into a store holding `[0, 3600)` commits both rows,
and the resulting store contains two activities with distinct ids whose
half-open intervals intersect. -/
theorem log_activity_commits_overlapping_rows :
    ∃ a ∈ storeOneAfter.activities, ∃ b ∈ storeOneAfter.activities,
      a.id ≠ b.id ∧ a.start_time < b.end_time ∧ b.start_time < a.end_time := by
  decide

/-- C2.  `log_activity` never runs the conflict detector: on `storeOne` the
detector reports a conflict for `[1800, 5400)`, yet the create succeeds
anyway — it returns the fresh id 2 with duration 60 and the row count grows
to 2 (no `OverlapConflict` failure, row inserted). -/
theorem log_activity_ignores_conflicts :
    check_overlap_range storeOne 1800 5400 none = [(1, 0, 3600)] ∧
      (log_activity storeOne 1800 5400 1 [] none).2 = (2, 60) ∧
      storeOneAfter.activities.length = 2 := by
  decide

/-- C4.  `update_activity` never re-runs the conflict detector: moving
activity 2 of `storeTwo` to `[1800, 5400)` overlaps activity 1 — the
detector with `exclude_id = 2` reports the conflict — yet the update
is committed and reports success. -/
theorem update_activity_ignores_conflicts :
    check_overlap_range storeTwo 1800 5400 (some 2) = [(1, 0, 3600)] ∧
      (update_activity storeTwo 2 (some 1800) (some 5400) none none).2 = true ∧
      (∃ a ∈ (update_activity storeTwo 2 (some 1800) (some 5400) none none).1.activities,
        ∃ b ∈ (update_activity storeTwo 2 (some 1800) (some 5400) none none).1.activities,
          a.id ≠ b.id ∧ a.start_time < b.end_time ∧ b.start_time < a.end_time) := by
  decide

/-! ## Category / tag registry (src/query_scripts.py lines 158-281) -/

/-- src/query_scripts.py `create_category` (lines 158-174): strip the name,
look the stripped name up case-insensitively (`LOWER(name) = LOWER(%s)`,
fetchone), return the existing id with `was_created = False` on a hit, else
insert the stripped name and return the fresh id with `was_created = True`. -/
def create_category (s : Store) (name : String) (color : Option String) :
    Store × Nat × Bool :=
  match s.categories.find? (fun c => pyLower c.name = pyLower (pyStrip name)) with
  | some c => (s, c.id, false)
  | none =>
      ({ s with
          categories := s.categories ++ [⟨s.next_category_id, pyStrip name, color⟩],
          next_category_id := s.next_category_id + 1 },
       s.next_category_id, true)

/-- src/query_scripts.py `create_tag` (lines 245-261): like `create_category`
but scoped to the owning category (`WHERE category_id = %s AND LOWER(name) =
LOWER(%s)`). -/
def create_tag (s : Store) (category_id : Nat) (name : String) : Store × Nat × Bool :=
  match s.tags.find?
      (fun t => decide (t.category_id = category_id) &&
        decide (pyLower t.name = pyLower (pyStrip name))) with
  | some t => (s, t.id, false)
  | none =>
      ({ s with
          tags := s.tags ++ [⟨s.next_tag_id, category_id, pyStrip name⟩],
          next_tag_id := s.next_tag_id + 1 },
       s.next_tag_id, true)

/-- src/query_scripts.py `rename_category` (lines 177-183): run
`UPDATE categories SET name = %s WHERE id = %s` with the stripped new name
and return the confirmation message, with no check that any row was
affected.  (The Python wraps the new name in decorative single quotes;
the quotes are dropped here.) -/
def rename_category (s : Store) (category_id : Nat) (new_name : String) :
    Store × List String :=
  ({ s with
      categories := s.categories.map fun c =>
        if c.id = category_id then { c with name := pyStrip new_name } else c },
   ["Category renamed to " ++ new_name])

/-- src/query_scripts.py `delete_category` (lines 186-202): fetch the name
(returning a not-found message when the id is absent — modelled as `none`),
count the activities referencing the category, then delete the category row.
The Python statement deletes only the `categories` row; the removal of the
referencing rows is done by the schema, and ddl.sql is not part of src/.
Modelled from the spec: deleting a category "removes the category row AND
all activities referencing it (cascade)", a tag belongs to exactly one
category, and deleting an activity or tag removes its associations, so the
category's tags, its activities and the associations of all removed rows go
too.  Returns the category name and the destroyed-activities count that the
Python formats into its confirmation message. -/
def delete_category (s : Store) (category_id : Nat) : Store × Option (String × Nat) :=
  match s.categories.find? (fun c => c.id = category_id) with
  | none => (s, none)
  | some c =>
      ({ s with
          categories := s.categories.filter fun c' => ¬ c'.id = category_id,
          tags := s.tags.filter fun t => ¬ t.category_id = category_id,
          activities := s.activities.filter fun a => ¬ a.category_id = category_id,
          activity_tags := s.activity_tags.filter fun p =>
            ((s.activities.filter fun a => ¬ a.category_id = category_id).any
              fun a => a.id = p.1) &&
            ((s.tags.filter fun t => ¬ t.category_id = category_id).any
              fun t => t.id = p.2) },
       some (c.name, (s.activities.filter fun a => a.category_id = category_id).length))

/-! ## C6 — get-or-create is idempotent up to case and surrounding whitespace -/

/-- C6.  For names equal up to case and surrounding whitespace, a second
get-or-create returns the same id as the first with `was_created = false`;
the first call reports `was_created = true` exactly when no stored name
matches case-insensitively, and it then stores the trimmed name.  Stated for
categories and for tags (the tag registry is scoped by `cid`). -/
theorem get_or_create_idempotent (s : Store) (n₁ n₂ : String) (c₁ c₂ : Option String)
    (cid : Nat) (h : pyLower (pyStrip n₁) = pyLower (pyStrip n₂)) :
    ((create_category (create_category s n₁ c₁).1 n₂ c₂).2.1 = (create_category s n₁ c₁).2.1 ∧
      (create_category (create_category s n₁ c₁).1 n₂ c₂).2.2 = false ∧
      ((∀ c ∈ s.categories, pyLower c.name ≠ pyLower (pyStrip n₁)) →
        (create_category s n₁ c₁).2.2 = true) ∧
      ((create_category s n₁ c₁).2.2 = true →
        ∃ c ∈ (create_category s n₁ c₁).1.categories,
          c.id = (create_category s n₁ c₁).2.1 ∧ c.name = pyStrip n₁)) ∧
    ((create_tag (create_tag s cid n₁).1 cid n₂).2.1 = (create_tag s cid n₁).2.1 ∧
      (create_tag (create_tag s cid n₁).1 cid n₂).2.2 = false ∧
      ((∀ t ∈ s.tags, t.category_id = cid → pyLower t.name ≠ pyLower (pyStrip n₁)) →
        (create_tag s cid n₁).2.2 = true) ∧
      ((create_tag s cid n₁).2.2 = true →
        ∃ t ∈ (create_tag s cid n₁).1.tags,
          t.id = (create_tag s cid n₁).2.1 ∧ t.name = pyStrip n₁ ∧ t.category_id = cid)) := by
  constructor
  · cases hf : s.categories.find? (fun c => pyLower c.name = pyLower (pyStrip n₁)) with
    | some c =>
        have hs : create_category s n₁ c₁ = (s, c.id, false) := by
          simp [create_category, hf]
        rw [hs]
        have hf₂ : s.categories.find? (fun c => pyLower c.name = pyLower (pyStrip n₂)) =
            some c := by rw [← h]; exact hf
        refine ⟨by simp [create_category, hf₂], by simp [create_category, hf₂], ?_, ?_⟩
        · intro hall
          exfalso
          have hp := List.find?_some hf
          have hm := List.mem_of_find?_eq_some hf
          simp only [decide_eq_true_eq] at hp
          exact hall c hm hp
        · intro hcr
          simp at hcr
    | none =>
        have hf₂ : s.categories.find? (fun c => pyLower c.name = pyLower (pyStrip n₂)) =
            none := by rw [← h]; exact hf
        have hs : create_category s n₁ c₁ =
            ({ s with
                categories := s.categories ++ [Category.mk s.next_category_id (pyStrip n₁) c₁],
                next_category_id := s.next_category_id + 1 },
             s.next_category_id, true) := by
          simp [create_category, hf]
        have hsec : create_category (create_category s n₁ c₁).1 n₂ c₂ =
            ((create_category s n₁ c₁).1, s.next_category_id, false) := by
          rw [hs]
          simp [create_category, List.find?_append, hf₂, h, List.find?]
        refine ⟨by rw [hsec, hs], by rw [hsec], fun _ => by rw [hs], ?_⟩
        intro _
        rw [hs]
        exact ⟨Category.mk s.next_category_id (pyStrip n₁) c₁, by simp, rfl, rfl⟩
  · cases hf : s.tags.find?
        (fun t => decide (t.category_id = cid) &&
          decide (pyLower t.name = pyLower (pyStrip n₁))) with
    | some t =>
        have hs : create_tag s cid n₁ = (s, t.id, false) := by
          simp [create_tag, hf]
        rw [hs]
        have hf₂ : s.tags.find?
            (fun t => decide (t.category_id = cid) &&
              decide (pyLower t.name = pyLower (pyStrip n₂))) =
            some t := by rw [← h]; exact hf
        refine ⟨by simp [create_tag, hf₂], by simp [create_tag, hf₂], ?_, ?_⟩
        · intro hall
          exfalso
          have hp := List.find?_some hf
          have hm := List.mem_of_find?_eq_some hf
          simp only [Bool.and_eq_true, decide_eq_true_eq] at hp
          exact hall t hm hp.1 hp.2
        · intro hcr
          simp at hcr
    | none =>
        have hf₂ : s.tags.find?
            (fun t => decide (t.category_id = cid) &&
              decide (pyLower t.name = pyLower (pyStrip n₂))) =
            none := by rw [← h]; exact hf
        have hs : create_tag s cid n₁ =
            ({ s with
                tags := s.tags ++ [Tag.mk s.next_tag_id cid (pyStrip n₁)],
                next_tag_id := s.next_tag_id + 1 },
             s.next_tag_id, true) := by
          simp [create_tag, hf]
        have hsec : create_tag (create_tag s cid n₁).1 cid n₂ =
            ((create_tag s cid n₁).1, s.next_tag_id, false) := by
          rw [hs]
          simp [create_tag, List.find?_append, hf₂, h, List.find?]
        refine ⟨by rw [hsec, hs], by rw [hsec], fun _ => by rw [hs], ?_⟩
        intro _
        rw [hs]
        exact ⟨Tag.mk s.next_tag_id cid (pyStrip n₁), by simp, rfl, rfl, rfl⟩

/-- C6 witness: on the empty store, creating " Work " and then "work"
returns the same category id twice. -/
theorem get_or_create_idempotent_witness :
    (create_category (create_category emptyStore " Work " none).1 "work" none).2.1 =
      (create_category emptyStore " Work " none).2.1 :=
  (get_or_create_idempotent emptyStore " Work " "work" none none 1 (by decide)).1.1

/-! ## C7 — delete_category cascades and counts -/

/-- C7.  For an existing category, `delete_category` returns the name
together with the number of activities that referenced the category
immediately before the deletion, no activity referencing it survives, the
category row itself is gone, and activities of other categories are kept. -/
theorem delete_category_cascades (s : Store) (category_id : Nat)
    (h : ∃ c ∈ s.categories, c.id = category_id) :
    (∃ nm, (delete_category s category_id).2 =
        some (nm, (s.activities.filter fun a => a.category_id = category_id).length)) ∧
      ((delete_category s category_id).1.activities.filter
        fun a => a.category_id = category_id) = [] ∧
      (∀ c ∈ (delete_category s category_id).1.categories, c.id ≠ category_id) ∧
      (∀ a ∈ s.activities, a.category_id ≠ category_id →
        a ∈ (delete_category s category_id).1.activities) := by
  obtain ⟨c, hcmem, hcid⟩ := h
  cases hfind : s.categories.find? (fun c => c.id = category_id) with
  | none =>
      exfalso
      have := List.find?_eq_none.mp hfind c hcmem
      simp [hcid] at this
  | some c₀ =>
      refine ⟨⟨c₀.name, by simp [delete_category, hfind]⟩, ?_, ?_, ?_⟩
      · simp only [delete_category, hfind]
        rw [List.filter_filter]
        apply List.filter_eq_nil_iff.mpr
        intro a _
        simp
      · simp only [delete_category, hfind]
        intro c' hc'
        have := (List.mem_filter.mp hc').2
        simpa using this
      · simp only [delete_category, hfind]
        intro a ha hne
        exact List.mem_filter.mpr ⟨ha, by simpa using hne⟩

/-- C7 witness: deleting category 1 of `storeTwo` destroys both of its
activities and reports the count 2. -/
theorem delete_category_cascades_witness :
    (∃ nm, (delete_category storeTwo 1).2 =
        some (nm, (storeTwo.activities.filter fun a => a.category_id = 1).length)) ∧
      ((delete_category storeTwo 1).1.activities.filter fun a => a.category_id = 1) = [] ∧
      (∀ c ∈ (delete_category storeTwo 1).1.categories, c.id ≠ 1) ∧
      (∀ a ∈ storeTwo.activities, a.category_id ≠ 1 →
        a ∈ (delete_category storeTwo 1).1.activities) :=
  delete_category_cascades storeTwo 1 (by decide)

/-! ## C8 — not-found is a returned sentinel, except for rename -/

/-- Helper: mapping a function that fixes every element is the identity. -/
theorem map_eq_self_of_fix {α : Type} (l : List α) (f : α → α) (h : ∀ a ∈ l, f a = a) :
    l.map f = l := by
  induction l with
  | nil => rfl
  | cons a t ih =>
      rw [List.map_cons, h a (List.mem_cons_self a t),
        ih fun b hb => h b (List.mem_cons_of_mem a hb)]

/-- A category store whose only category has id 1. -/
def storeCat : Store := ⟨[⟨1, "Work", none⟩], [], [], [], 2, 1, 1⟩

/-- C8, counterexample.  The claim says `rename` on a nonexistent id reports
not-found; in the code `rename_category` runs the UPDATE without checking
the row count and returns the very same success message whether or not the
id exists, so no not-found signal is produced. -/
theorem rename_category_reports_success_on_missing_id :
    (rename_category emptyStore 1 "Stuff").2 = ["Category renamed to Stuff"] ∧
      (rename_category emptyStore 1 "Stuff").2 = (rename_category storeCat 1 "Stuff").2 := by
  constructor <;> rfl

/-- C8 as amended.  For an id absent from the store, `delete_activity`
returns the `none` sentinel with the store unchanged, `get_activity`
returns `none`, and `update_activity` returns `false` (as it also does when
no field is provided); none of them raises.  `rename_category` also does
not raise, but it reports no not-found signal either: it returns the
unconditional success message, leaving the store unchanged. -/
theorem notfound_is_returned_not_raised (s : Store) (aid cid : Nat) (nm : String)
    (hact : ∀ a ∈ s.activities, a.id ≠ aid) (hcat : ∀ c ∈ s.categories, c.id ≠ cid) :
    delete_activity s aid = (s, none) ∧
    get_activity s aid = none ∧
    (∀ os oe oc onotes, (update_activity s aid os oe oc onotes).2 = false) ∧
    update_activity s aid none none none none = (s, false) ∧
    (rename_category s cid nm).2 = ["Category renamed to " ++ nm] ∧
    (rename_category s cid nm).1 = s := by
  have hfind : s.activities.find? (fun a => a.id = aid) = none :=
    List.find?_eq_none.mpr fun a ha => by simpa using hact a ha
  refine ⟨?_, ?_, ?_, ?_, rfl, ?_⟩
  · simp [delete_activity, hfind]
  · simp [get_activity, hfind]
  · intro os oe oc onotes
    by_cases hc : os = none ∧ oe = none ∧ oc = none ∧ onotes = none
    · simp [update_activity, hc]
    · simp only [update_activity, if_neg hc]
      apply Bool.eq_false_iff.mpr
      intro hany
      obtain ⟨a, ha, hpa⟩ := List.any_eq_true.mp hany
      exact hact a ha (by simpa using hpa)
  · simp [update_activity]
  · have hfix : (s.categories.map fun c =>
        if c.id = cid then { c with name := pyStrip nm } else c) = s.categories :=
      map_eq_self_of_fix _ _ fun c hc => if_neg (hcat c hc)
    show { s with categories := _ } = s
    rw [hfix]

/-- C8 witness: on `storeOne`, activity id 9 and category id 9 do not exist;
deleting activity 9 yields the `none` sentinel and fetching it yields
`none`. -/
theorem notfound_is_returned_not_raised_witness :
    delete_activity storeOne 9 = (storeOne, none) ∧ get_activity storeOne 9 = none :=
  ⟨(notfound_is_returned_not_raised storeOne 9 9 "X" (by decide) (by decide)).1,
   (notfound_is_returned_not_raised storeOne 9 9 "X" (by decide) (by decide)).2.1⟩

/-! ## C9 — update touches exactly the provided fields of the target row -/

/-- C9.  `update_activity` never touches the category, tag or association
tables, keeps the number of activity rows, leaves every activity other than
the target unchanged, and on the target row sets exactly the provided
fields: an omitted (`none`) field keeps its stored value, a provided notes
string that strips to blank is normalised to the no-notes state (`none`),
and a provided non-blank notes string is stored verbatim. -/
theorem update_activity_frame (s : Store) (aid : Nat) (os oe oc : Option Nat)
    (onotes : Option String) :
    (update_activity s aid os oe oc onotes).1.categories = s.categories ∧
    (update_activity s aid os oe oc onotes).1.tags = s.tags ∧
    (update_activity s aid os oe oc onotes).1.activity_tags = s.activity_tags ∧
    (update_activity s aid os oe oc onotes).1.activities.length = s.activities.length ∧
    (∀ a ∈ s.activities, a.id ≠ aid →
      a ∈ (update_activity s aid os oe oc onotes).1.activities) ∧
    (∀ a ∈ s.activities, a.id = aid →
      ∃ a' ∈ (update_activity s aid os oe oc onotes).1.activities,
        a'.id = a.id ∧
        (os = none → a'.start_time = a.start_time) ∧
        (∀ v, os = some v → a'.start_time = v) ∧
        (oe = none → a'.end_time = a.end_time) ∧
        (∀ v, oe = some v → a'.end_time = v) ∧
        (oc = none → a'.category_id = a.category_id) ∧
        (∀ v, oc = some v → a'.category_id = v) ∧
        (onotes = none → a'.notes = a.notes) ∧
        (∀ w, onotes = some w → a'.notes = if pyStrip w = "" then none else some w)) := by
  by_cases hc : os = none ∧ oe = none ∧ oc = none ∧ onotes = none
  · obtain ⟨h1, h2, h3, h4⟩ := hc
    subst h1; subst h2; subst h3; subst h4
    have hupd : update_activity s aid none none none none = (s, false) := by
      simp [update_activity]
    rw [hupd]
    refine ⟨rfl, rfl, rfl, rfl, fun a ha _ => ha, ?_⟩
    intro a ha _
    refine ⟨a, ha, rfl, fun _ => rfl, ?_, fun _ => rfl, ?_, fun _ => rfl, ?_,
      fun _ => rfl, ?_⟩
    · intro v hv; cases hv
    · intro v hv; cases hv
    · intro v hv; cases hv
    · intro w hw; cases hw
  · have hupd : update_activity s aid os oe oc onotes =
        ({ s with activities := s.activities.map (applySet os oe oc onotes aid) },
         s.activities.any fun a => a.id = aid) := by
      rw [update_activity, if_neg hc]
    rw [hupd]
    refine ⟨rfl, rfl, rfl, List.length_map _ _, ?_, ?_⟩
    · intro a ha hne
      have hfix : applySet os oe oc onotes aid a = a := if_neg hne
      exact List.mem_map.mpr ⟨a, ha, hfix⟩
    · intro a ha hid
      refine ⟨applySet os oe oc onotes aid a, List.mem_map_of_mem _ ha, ?_⟩
      simp only [applySet]
      rw [if_pos hid]
      refine ⟨rfl, ?_, ?_, ?_, ?_, ?_, ?_, ?_, ?_⟩
      · intro h0; rw [h0]; rfl
      · intro v hv; rw [hv]; rfl
      · intro h0; rw [h0]; rfl
      · intro v hv; rw [hv]; rfl
      · intro h0; rw [h0]; rfl
      · intro v hv; rw [hv]; rfl
      · intro h0; rw [h0]
      · intro w hw; rw [hw]

/-! ## Aggregation / reporting (src/query_scripts.py lines 594-679) -/

/-- Calendar date of an activity as a day number: `DATE(start_time)` for
naive local time measured in whole seconds. -/
def activityDay (a : Activity) : Nat := a.start_time / 86400

/-- The report restriction `WHERE DATE(start_time) >= %s AND
DATE(start_time) <= %s`: the closed day range `[d₁, d₂]`. -/
def matchingActivities (s : Store) (d₁ d₂ : Nat) : List Activity :=
  s.activities.filter fun a => d₁ ≤ activityDay a ∧ activityDay a ≤ d₂

/-- Row seconds, `EXTRACT(EPOCH FROM (end_time - start_time))`. -/
def rowSeconds (a : Activity) : Int := (a.end_time : Int) - (a.start_time : Int)

/-- Seconds of a group of rows. -/
def sumSeconds (l : List Activity) : Int := (l.map rowSeconds).sum

/-- The report aggregate
`COALESCE(SUM(EXTRACT(EPOCH FROM (end_time - start_time)) / 60), 0)::INTEGER`
applied to a group whose rows total `secs` seconds: under exact numeric
arithmetic the sum of the per-row quotients equals the group's total seconds
divided by 60, and casting a numeric to INTEGER rounds, halves away from
zero. -/
def pgCastMinutes (secs : Int) : Int :=
  if 0 ≤ secs then (((secs.toNat + 30) / 60 : ℕ) : Int)
  else -(((((-secs).toNat + 30) / 60 : ℕ) : Int))

/-- Ordering of `ORDER BY DATE(start_time) DESC` on daily report rows. -/
def dayGE (r₁ r₂ : Nat × Nat × Int) : Prop := r₂.1 ≤ r₁.1

instance : DecidableRel dayGE := fun _ _ => Nat.decLe _ _

/-- Ordering of `ORDER BY total_minutes DESC` on category report rows. -/
def minutesGE (r₁ r₂ : String × Nat × Int) : Prop := r₂.2.2 ≤ r₁.2.2

instance : DecidableRel minutesGE := fun _ _ => Int.decLe _ _

/-- src/query_scripts.py `report_daily` (lines 594-635), the query: rows
`(date, activity_count, total_minutes)` grouped by `DATE(start_time)` over
the closed date range, ordered descending by date.  (The Python formats the
rows into a table and totals them; only the rows are modelled.) -/
def report_daily (s : Store) (d₁ d₂ : Nat) : List (Nat × Nat × Int) :=
  List.insertionSort dayGE
    (((matchingActivities s d₁ d₂).map activityDay).dedup.map fun d =>
      (d,
       ((matchingActivities s d₁ d₂).filter fun a => activityDay a = d).length,
       pgCastMinutes (sumSeconds
         ((matchingActivities s d₁ d₂).filter fun a => activityDay a = d))))

/-- src/query_scripts.py `report_categories` (lines 638-679), the query:
rows `(name, activity_count, total_minutes)`, one per category with at least
one matching activity (`LEFT JOIN ... GROUP BY c.id, c.name HAVING
COUNT(a.id) > 0`), ordered descending by total minutes.  (The Python adds a
percentage column computed from these same totals.) -/
def report_categories (s : Store) (d₁ d₂ : Nat) : List (String × Nat × Int) :=
  List.insertionSort minutesGE
    ((s.categories.map fun c =>
        (c.name,
         ((matchingActivities s d₁ d₂).filter fun a => a.category_id = c.id).length,
         pgCastMinutes (sumSeconds
           ((matchingActivities s d₁ d₂).filter fun a => a.category_id = c.id)))).filter
      fun r => 0 < r.2.1)

/-- Per-row whole minutes with the sub-minute remainder truncated before
summing.  This is the aggregation rule the spec's words describe
("truncated at the row level before summing"); it is declared only to be
compared with the report queries above, which follow the source. -/
def specRowMinutes (a : Activity) : Nat := (a.end_time - a.start_time) / 60

/-- Sum of the per-row truncated minutes of a group, as the spec words it. -/
def specTruncSum (l : List Activity) : Int := ((l.map specRowMinutes).sum : ℤ)

/-! ## C5 — how report totals round -/

/-- One category and two 90-second activities on day 0. -/
def storeNinety : Store :=
  ⟨[⟨1, "Work", none⟩], [],
   [⟨1, 0, 90, 1, none⟩, ⟨2, 100, 190, 1, none⟩], [], 2, 1, 3⟩

/-- C5, counterexample.  The claim says report totals truncate `(end -
start)` to minutes per row before summing.  On two 90-second activities the
per-row truncated sum is `1 + 1 = 2`, but `report_daily` (summing the
fractional minutes and converting once at the end) reports 3. -/
theorem report_totals_not_row_truncated :
    report_daily storeNinety 0 0 = [(0, 2, 3)] ∧
      specTruncSum (matchingActivities storeNinety 0 0) = 2 ∧ (3 : Int) ≠ 2 := by
  decide

/-- Helper: a sum of zeros is zero. -/
theorem sum_map_zero {β M : Type} [AddCommMonoid M] (l : List β) (f : β → M)
    (h : ∀ b ∈ l, f b = 0) : (l.map f).sum = 0 := by
  induction l with
  | nil => rfl
  | cons b t ih =>
      rw [List.map_cons, List.sum_cons, h b (List.mem_cons_self b t),
        ih fun c hc => h c (List.mem_cons_of_mem b hc), zero_add]

/-- Helper: pointwise equal functions give equal maps. -/
theorem map_congr_mem {α β : Type} (l : List α) (f g : α → β)
    (h : ∀ a ∈ l, f a = g a) : l.map f = l.map g := by
  induction l with
  | nil => rfl
  | cons a t ih =>
      rw [List.map_cons, List.map_cons, h a (List.mem_cons_self a t),
        ih fun b hb => h b (List.mem_cons_of_mem a hb)]

/-- Helper: sums distribute over pointwise addition. -/
theorem sum_map_add {β M : Type} [AddCommMonoid M] (l : List β) (g h : β → M) :
    (l.map fun k => g k + h k).sum = (l.map g).sum + (l.map h).sum := by
  induction l with
  | nil => simp
  | cons b t ih =>
      simp only [List.map_cons, List.sum_cons, ih]
      exact add_add_add_comm _ _ _ _

/-- Helper: over a list without duplicates that contains `x`, the sum of
`if x = k then v else 0` is `v`. -/
theorem sum_map_ite_single {β M : Type} [DecidableEq β] [AddCommMonoid M]
    (ks : List β) (hnd : ks.Nodup) (x : β) (hx : x ∈ ks) (v : M) :
    (ks.map fun k => if x = k then v else 0).sum = v := by
  induction ks with
  | nil => cases hx
  | cons k t ih =>
      rw [List.map_cons, List.sum_cons]
      rcases List.mem_cons.mp hx with h | h
      · subst h
        have hz : ∀ c ∈ t, (if x = c then v else 0) = 0 := by
          intro c hc
          refine if_neg ?_
          intro hxc
          exact (List.nodup_cons.mp hnd).1 (by rw [hxc]; exact hc)
        rw [if_pos rfl, sum_map_zero t _ hz, add_zero]
      · have hne : x ≠ k := by
          intro hxk
          exact (List.nodup_cons.mp hnd).1 (by rw [← hxk]; exact h)
        rw [if_neg hne, ih (List.nodup_cons.mp hnd).2 h, zero_add]

/-- Helper: summing fiberwise over a duplicate-free list of keys that covers
every element recovers the total sum. -/
theorem sum_fiber {α β M : Type} [DecidableEq β] [AddCommMonoid M]
    (key : α → β) (f : α → M) (ks : List β) (hnd : ks.Nodup)
    (l : List α) (hcov : ∀ a ∈ l, key a ∈ ks) :
    (ks.map fun k => ((l.filter fun a => key a = k).map f).sum).sum = (l.map f).sum := by
  induction l with
  | nil => simp
  | cons a t ih =>
      have hstep : ∀ k, (((a :: t).filter fun b => key b = k).map f).sum =
          (if key a = k then f a else 0) + ((t.filter fun b => key b = k).map f).sum := by
        intro k
        by_cases h : key a = k
        · rw [List.filter_cons_of_pos (by simpa using h), List.map_cons, List.sum_cons,
            if_pos h]
        · rw [List.filter_cons_of_neg (by simpa using h), if_neg h, zero_add]
      have hmap : (ks.map fun k => (((a :: t).filter fun b => key b = k).map f).sum) =
          ks.map fun k => (if key a = k then f a else 0) +
            ((t.filter fun b => key b = k).map f).sum :=
        map_congr_mem _ _ _ fun k _ => hstep k
      rw [hmap, sum_map_add,
        sum_map_ite_single ks hnd (key a) (hcov a (List.mem_cons_self a t)) (f a),
        ih fun b hb => hcov b (List.mem_cons_of_mem a hb),
        List.map_cons, List.sum_cons]

/-- Helper: a sum over a filtered list equals the unfiltered sum when the
dropped elements contribute zero. -/
theorem sum_filter_of_zero {β M : Type} [AddCommMonoid M] (l : List β)
    (p : β → Prop) [DecidablePred p] (f : β → M) (h : ∀ b ∈ l, ¬ p b → f b = 0) :
    ((l.filter fun b => p b).map f).sum = (l.map f).sum := by
  induction l with
  | nil => rfl
  | cons b t ih =>
      have ih' := ih fun c hc => h c (List.mem_cons_of_mem b hc)
      by_cases hp : p b
      · rw [List.filter_cons_of_pos (by simpa using hp), List.map_cons, List.sum_cons, ih',
          List.map_cons, List.sum_cons]
      · rw [List.filter_cons_of_neg (by simpa using hp), ih', List.map_cons, List.sum_cons,
          h b (List.mem_cons_self b t) hp, zero_add]

/-- Helper: a cast of a sum of naturals. -/
theorem sum_map_natCast {β : Type} (l : List β) (g : β → Nat) :
    (l.map fun k => ((g k : ℕ) : ℤ)).sum = (((l.map g).sum : ℕ) : ℤ) := by
  induction l with
  | nil => rfl
  | cons b t ih =>
      simp only [List.map_cons, List.sum_cons, ih]
      push_cast
      ring

/-- Helper: for a group of rows each lasting a whole number of minutes, the
aggregate `pgCastMinutes (sumSeconds l)` is exactly the sum of the per-row
truncated minutes. -/
theorem pgCastMinutes_sumSeconds (l : List Activity)
    (h : ∀ a ∈ l, a.start_time ≤ a.end_time ∧ (a.end_time - a.start_time) % 60 = 0) :
    pgCastMinutes (sumSeconds l) = (((l.map specRowMinutes).sum : ℕ) : ℤ) := by
  have hsec : sumSeconds l = ((60 * (l.map specRowMinutes).sum : ℕ) : ℤ) := by
    induction l with
    | nil => rfl
    | cons a t ih =>
        have ih' := ih fun b hb => h b (List.mem_cons_of_mem a hb)
        have ha := h a (List.mem_cons_self a t)
        have hdur : a.end_time - a.start_time = 60 * specRowMinutes a := by
          rw [specRowMinutes, Nat.mul_div_cancel' (Nat.dvd_of_mod_eq_zero ha.2)]
        have hrow : rowSeconds a = ((60 * specRowMinutes a : ℕ) : ℤ) := by
          rw [rowSeconds, ← hdur, Int.ofNat_sub ha.1]
        simp only [sumSeconds, List.map_cons, List.sum_cons] at ih' ⊢
        rw [hrow, ih']
        push_cast
        ring
  rw [hsec, pgCastMinutes]
  rw [if_pos (by positivity)]
  have htn : ((60 * (l.map specRowMinutes).sum : ℕ) : ℤ).toNat =
      60 * (l.map specRowMinutes).sum := Int.toNat_natCast _
  rw [htn]
  have hdiv : (60 * (l.map specRowMinutes).sum + 30) / 60 = (l.map specRowMinutes).sum := by
    rw [Nat.add_comm, Nat.add_mul_div_left 30 _ (by norm_num),
      Nat.div_eq_of_lt (by norm_num), Nat.zero_add]
  rw [hdiv]

/-- C5 as amended.  Each report total is the sum of the raw fractional
per-row minutes of its group with a single conversion to whole minutes at
the end (`SUM(... / 60)::INTEGER`), not a per-row truncation; when every
matching activity lasts a whole number of minutes, the two rules coincide,
and the by-day total, the by-category total and the per-row truncated sum
are all equal.  Referential integrity (every matching activity's category
exists) and the primary key on categories are assumed. -/
theorem report_totals_consistent (s : Store) (d₁ d₂ : Nat)
    (hw : ∀ a ∈ matchingActivities s d₁ d₂,
      a.start_time ≤ a.end_time ∧ (a.end_time - a.start_time) % 60 = 0)
    (hcat : ∀ a ∈ matchingActivities s d₁ d₂,
      a.category_id ∈ s.categories.map Category.id)
    (hnd : (s.categories.map Category.id).Nodup) :
    ((report_daily s d₁ d₂).map fun r => r.2.2).sum =
        specTruncSum (matchingActivities s d₁ d₂) ∧
      ((report_categories s d₁ d₂).map fun r => r.2.2).sum =
        specTruncSum (matchingActivities s d₁ d₂) := by
  constructor
  · have hperm : ((report_daily s d₁ d₂).map fun r => r.2.2).sum =
        ((((matchingActivities s d₁ d₂).map activityDay).dedup.map fun d =>
          (d,
           ((matchingActivities s d₁ d₂).filter fun a => activityDay a = d).length,
           pgCastMinutes (sumSeconds
             ((matchingActivities s d₁ d₂).filter fun a => activityDay a = d)))).map
          (fun r => r.2.2)).sum :=
      ((List.perm_insertionSort dayGE _).map fun r => r.2.2).sum_eq
    rw [hperm, List.map_map]
    have hpt : ∀ d ∈ ((matchingActivities s d₁ d₂).map activityDay).dedup,
        pgCastMinutes (sumSeconds
            ((matchingActivities s d₁ d₂).filter fun a => activityDay a = d)) =
          (((((matchingActivities s d₁ d₂).filter fun a => activityDay a = d).map
            specRowMinutes).sum : ℕ) : ℤ) := by
      intro d _
      exact pgCastMinutes_sumSeconds _ fun a ha => hw a (List.mem_filter.mp ha).1
    calc ((((matchingActivities s d₁ d₂).map activityDay).dedup).map
            ((fun r : Nat × Nat × Int => r.2.2) ∘ fun d =>
              (d,
               ((matchingActivities s d₁ d₂).filter fun a => activityDay a = d).length,
               pgCastMinutes (sumSeconds
                 ((matchingActivities s d₁ d₂).filter fun a => activityDay a = d))))).sum
        = ((((matchingActivities s d₁ d₂).map activityDay).dedup).map fun d =>
            (((((matchingActivities s d₁ d₂).filter fun a => activityDay a = d).map
              specRowMinutes).sum : ℕ) : ℤ)).sum :=
          congrArg List.sum (map_congr_mem _ _ _ fun d hd => hpt d hd)
      _ = (((((matchingActivities s d₁ d₂).map activityDay).dedup).map fun d =>
            (((matchingActivities s d₁ d₂).filter fun a => activityDay a = d).map
              specRowMinutes).sum).sum : ℕ) := sum_map_natCast _ _
      _ = (((matchingActivities s d₁ d₂).map specRowMinutes).sum : ℕ) := by
          rw [sum_fiber activityDay specRowMinutes _
            (List.nodup_dedup _) _
            fun a ha => List.mem_dedup.mpr (List.mem_map_of_mem activityDay ha)]
      _ = specTruncSum (matchingActivities s d₁ d₂) := rfl
  · have hperm : ((report_categories s d₁ d₂).map fun r => r.2.2).sum =
        (((s.categories.map fun c =>
            (c.name,
             ((matchingActivities s d₁ d₂).filter fun a => a.category_id = c.id).length,
             pgCastMinutes (sumSeconds
               ((matchingActivities s d₁ d₂).filter
                 fun a => a.category_id = c.id)))).filter
          (fun r => 0 < r.2.1)).map (fun r => r.2.2)).sum :=
      ((List.perm_insertionSort minutesGE _).map fun r => r.2.2).sum_eq
    rw [hperm]
    have hzero : ∀ r ∈ s.categories.map fun c =>
        (c.name,
         ((matchingActivities s d₁ d₂).filter fun a => a.category_id = c.id).length,
         pgCastMinutes (sumSeconds
           ((matchingActivities s d₁ d₂).filter fun a => a.category_id = c.id))),
        ¬ 0 < r.2.1 → r.2.2 = 0 := by
      intro r hr hnpos
      obtain ⟨c, _, rfl⟩ := List.mem_map.mp hr
      have hlen : ((matchingActivities s d₁ d₂).filter
          fun a => a.category_id = c.id).length = 0 := Nat.eq_zero_of_not_pos hnpos
      have hemp : ((matchingActivities s d₁ d₂).filter
          fun a => a.category_id = c.id) = [] := List.length_eq_zero.mp hlen
      show pgCastMinutes (sumSeconds _) = 0
      rw [hemp]
      rfl
    rw [sum_filter_of_zero _ _ _ hzero, List.map_map]
    have hpt : ∀ c ∈ s.categories,
        ((fun r : String × Nat × Int => r.2.2) ∘ fun c : Category =>
          (c.name,
           ((matchingActivities s d₁ d₂).filter fun a => a.category_id = c.id).length,
           pgCastMinutes (sumSeconds
             ((matchingActivities s d₁ d₂).filter fun a => a.category_id = c.id)))) c =
          (((((matchingActivities s d₁ d₂).filter fun a => a.category_id = c.id).map
            specRowMinutes).sum : ℕ) : ℤ) := by
      intro c _
      exact pgCastMinutes_sumSeconds _ fun a ha => hw a (List.mem_filter.mp ha).1
    rw [map_congr_mem _ _ _ hpt]
    have hm : (s.categories.map fun c =>
        (((((matchingActivities s d₁ d₂).filter fun a => a.category_id = c.id).map
          specRowMinutes).sum : ℕ) : ℤ)) =
        (s.categories.map Category.id).map fun k =>
          (((((matchingActivities s d₁ d₂).filter fun a => a.category_id = k).map
            specRowMinutes).sum : ℕ) : ℤ) := by
      rw [List.map_map]
      rfl
    rw [hm, sum_map_natCast _ _,
      sum_fiber (fun a : Activity => a.category_id) specRowMinutes _ hnd _ hcat]
    rfl

/-- C5 witness: on a store with one whole-hour activity on day 0, the daily
report total equals the per-row truncated sum. -/
theorem report_totals_consistent_witness :
    ((report_daily storeOne 0 0).map fun r => r.2.2).sum =
      specTruncSum (matchingActivities storeOne 0 0) :=
  (report_totals_consistent storeOne 0 0 (by decide) (by decide) (by decide)).1

end TaskLogger
